import Mathlib
inductive Outcome where
  | promoted
  | demoted
  | noChange
deriving DecidableEq

inductive ForceResult where
  | ok
  | invalidLevel
deriving DecidableEq

/-- State of `DifficultyManager`: one field per attribute set in `__init__`. -/
structure DM where
  current_level : String
  levels : List String
  recent_performance : List Bool
  performance_window : Nat
  promotion_threshold : ℚ
  demotion_threshold : ℚ
deriving DecidableEq

/-- Constructor `DifficultyManager.__init__` (lines 8-14). -/
def initDM : DM :=
  { current_level := "easy"
    levels := ["easy", "medium", "hard"]
    recent_performance := []
    performance_window := 5
    promotion_threshold := 8/10
    demotion_threshold := 4/10 }

/-- Lines 21-23: after the append, drop the oldest entry (`pop(0)`) when the
window size is exceeded. -/
def trimWindow (w : Nat) (h : List Bool) : List Bool :=
  if h.length > w then h.tail else h

/-- Method `DifficultyManager._reset_performance_tracking` (lines 43-49): keep the
last two entries when more than two exist, else clear. -/
def resetPerformanceTracking (h : List Bool) : List Bool :=
  if h.length > 2 then h.drop (h.length - 2) else []

/-- Method `DifficultyManager.update_difficulty` (lines 16-41).  `sum` over Python
booleans counts the `True` entries; `self.levels[current_index ± 1]` is
embedded with `List.getD` (the guards keep the index in range, so the
default is never used). -/
def update_difficulty (s : DM) (is_correct : Bool) : DM × Outcome :=
  let h := trimWindow s.performance_window (s.recent_performance ++ [is_correct])
  if h.length ≥ s.performance_window then
    let accuracy : ℚ := (h.count true : ℚ) / (h.length : ℚ)
    let current_index := s.levels.indexOf s.current_level
    if accuracy ≥ s.promotion_threshold ∧ current_index < s.levels.length - 1 then
      ({ s with current_level := s.levels.getD (current_index + 1) s.current_level
                recent_performance := resetPerformanceTracking h }, Outcome.promoted)
    else if accuracy ≤ s.demotion_threshold ∧ current_index > 0 then
      ({ s with current_level := s.levels.getD (current_index - 1) s.current_level
                recent_performance := resetPerformanceTracking h }, Outcome.demoted)
    else ({ s with recent_performance := h }, Outcome.noChange)
  else ({ s with recent_performance := h }, Outcome.noChange)

/-- Method `DifficultyManager.get_current_accuracy` (lines 51-55), paired with the
unchanged state (the method assigns nothing). -/
def get_current_accuracy (s : DM) : ℚ × DM :=
  if s.recent_performance = [] then (0, s)
  else (((s.recent_performance.count true : ℚ) / (s.recent_performance.length : ℚ)) * 100, s)

/-- The dict built by `get_difficulty_info` (lines 57-66). -/
structure DifficultyInfo where
  current_level : String
  level_index : Nat
  total_levels : Nat
  recent_accuracy : ℚ
  questions_in_window : Nat
  window_size : Nat
deriving DecidableEq

/-- Method `DifficultyManager.get_difficulty_info` (lines 57-66). -/
def get_difficulty_info (s : DM) : DifficultyInfo × DM :=
  ({ current_level := s.current_level
     level_index := s.levels.indexOf s.current_level
     total_levels := s.levels.length
     recent_accuracy := (get_current_accuracy s).1
     questions_in_window := s.recent_performance.length
     window_size := s.performance_window }, s)

/-- Method `DifficultyManager.force_level` (lines 68-75): the success branch sets
the level and clears the history; the invalid branch only logs. -/
def force_level (s : DM) (level : String) : DM × ForceResult :=
  if level ∈ s.levels then
    ({ s with current_level := level, recent_performance := [] }, ForceResult.ok)
  else (s, ForceResult.invalidLevel)

/-- Method `DifficultyManager.reset` (lines 77-81). -/
def reset (s : DM) : DM :=
  { s with current_level := "easy", recent_performance := [] }

/-- Method `DifficultyManager.can_promote` (lines 83-86). -/
def can_promote (s : DM) : Bool × DM :=
  (decide (s.levels.indexOf s.current_level < s.levels.length - 1), s)

/-- Method `DifficultyManager.can_demote` (lines 88-91). -/
def can_demote (s : DM) : Bool × DM :=
  (decide (s.levels.indexOf s.current_level > 0), s)

/-- Method `DifficultyManager.get_next_level` (lines 93-98). -/
def get_next_level (s : DM) : String × DM :=
  if s.levels.indexOf s.current_level < s.levels.length - 1 then
    (s.levels.getD (s.levels.indexOf s.current_level + 1) s.current_level, s)
  else (s.current_level, s)

/-- Method `DifficultyManager.get_previous_level` (lines 100-105). -/
def get_previous_level (s : DM) : String × DM :=
  if s.levels.indexOf s.current_level > 0 then
    (s.levels.getD (s.levels.indexOf s.current_level - 1) s.current_level, s)
  else (s.current_level, s)

/-- Fold a sequence of `update_difficulty` calls, keeping the state. -/
def runDM (s : DM) (bs : List Bool) : DM :=
  bs.foldl (fun t b => (update_difficulty t b).1) s

/-- The outcome reported by each call of a sequence of `update_difficulty`
calls. -/
def runOutcomes (s : DM) (bs : List Bool) : List Outcome :=
  match bs with
  | [] => []
  | b :: rest => (update_difficulty s b).2 :: runOutcomes (update_difficulty s b).1 rest

/-- Configuration as fixed by `__init__`: every state of the actual program
carries these values, since no method reassigns them. -/
def Wf (s : DM) : Prop :=
  s.levels = ["easy", "medium", "hard"] ∧ s.performance_window = 5 ∧
    s.promotion_threshold = 8/10 ∧ s.demotion_threshold = 4/10

/-- Concrete state used by the example instantiations: four answers recorded,
so the window fills at the next call. -/
def exampleFull : DM := { initDM with recent_performance := [true, true, true, true] }


-- trim lemmas
lemma trimWindow_eq_self {w : Nat} {h : List Bool} (hle : h.length ≤ w) :
    trimWindow w h = h := by
  unfold trimWindow
  rw [if_neg (by omega)]

lemma trimWindow_length_le {w : Nat} {h : List Bool} (hle : h.length ≤ w + 1) :
    (trimWindow w h).length ≤ w := by
  unfold trimWindow
  split
  · simp [List.length_tail]; omega
  · omega

-- reset lemmas
lemma resetPerformanceTracking_of_gt {h : List Bool} (hgt : 2 < h.length) :
    resetPerformanceTracking h = h.drop (h.length - 2) := by
  unfold resetPerformanceTracking
  rw [if_pos hgt]

lemma resetPerformanceTracking_length {h : List Bool} (hgt : 2 < h.length) :
    (resetPerformanceTracking h).length = 2 := by
  rw [resetPerformanceTracking_of_gt hgt]
  simp [List.length_drop]
  omega

lemma resetPerformanceTracking_length_le (h : List Bool) :
    (resetPerformanceTracking h).length ≤ h.length := by
  unfold resetPerformanceTracking
  split
  · simp [List.length_drop]
  · simp

-- branch unfolding lemmas for update_difficulty
lemma update_of_small (s : DM) (b : Bool)
    (hlt : (trimWindow s.performance_window (s.recent_performance ++ [b])).length < s.performance_window) :
    update_difficulty s b =
      ({ s with recent_performance := trimWindow s.performance_window (s.recent_performance ++ [b]) },
        Outcome.noChange) := by
  unfold update_difficulty
  rw [if_neg (by omega)]

lemma update_promo (s : DM) (b : Bool)
    (hge : (trimWindow s.performance_window (s.recent_performance ++ [b])).length ≥ s.performance_window)
    (hc : ((trimWindow s.performance_window (s.recent_performance ++ [b])).count true : ℚ) /
            ((trimWindow s.performance_window (s.recent_performance ++ [b])).length : ℚ) ≥ s.promotion_threshold ∧
          s.levels.indexOf s.current_level < s.levels.length - 1) :
    update_difficulty s b =
      ({ s with current_level := s.levels.getD (s.levels.indexOf s.current_level + 1) s.current_level
                recent_performance := resetPerformanceTracking (trimWindow s.performance_window (s.recent_performance ++ [b])) },
        Outcome.promoted) := by
  unfold update_difficulty
  rw [if_pos hge, if_pos hc]

lemma update_demo (s : DM) (b : Bool)
    (hge : (trimWindow s.performance_window (s.recent_performance ++ [b])).length ≥ s.performance_window)
    (hnp : ¬(((trimWindow s.performance_window (s.recent_performance ++ [b])).count true : ℚ) /
            ((trimWindow s.performance_window (s.recent_performance ++ [b])).length : ℚ) ≥ s.promotion_threshold ∧
          s.levels.indexOf s.current_level < s.levels.length - 1))
    (hc : ((trimWindow s.performance_window (s.recent_performance ++ [b])).count true : ℚ) /
            ((trimWindow s.performance_window (s.recent_performance ++ [b])).length : ℚ) ≤ s.demotion_threshold ∧
          s.levels.indexOf s.current_level > 0) :
    update_difficulty s b =
      ({ s with current_level := s.levels.getD (s.levels.indexOf s.current_level - 1) s.current_level
                recent_performance := resetPerformanceTracking (trimWindow s.performance_window (s.recent_performance ++ [b])) },
        Outcome.demoted) := by
  unfold update_difficulty
  rw [if_pos hge, if_neg hnp, if_pos hc]

lemma update_nochange (s : DM) (b : Bool)
    (hge : (trimWindow s.performance_window (s.recent_performance ++ [b])).length ≥ s.performance_window)
    (hnp : ¬(((trimWindow s.performance_window (s.recent_performance ++ [b])).count true : ℚ) /
            ((trimWindow s.performance_window (s.recent_performance ++ [b])).length : ℚ) ≥ s.promotion_threshold ∧
          s.levels.indexOf s.current_level < s.levels.length - 1))
    (hnd : ¬(((trimWindow s.performance_window (s.recent_performance ++ [b])).count true : ℚ) /
            ((trimWindow s.performance_window (s.recent_performance ++ [b])).length : ℚ) ≤ s.demotion_threshold ∧
          s.levels.indexOf s.current_level > 0)) :
    update_difficulty s b =
      ({ s with recent_performance := trimWindow s.performance_window (s.recent_performance ++ [b]) },
        Outcome.noChange) := by
  unfold update_difficulty
  rw [if_pos hge, if_neg hnp, if_neg hnd]

-- configuration fields are never reassigned by update_difficulty
lemma update_config (s : DM) (b : Bool) :
    (update_difficulty s b).1.levels = s.levels ∧
    (update_difficulty s b).1.performance_window = s.performance_window ∧
    (update_difficulty s b).1.promotion_threshold = s.promotion_threshold ∧
    (update_difficulty s b).1.demotion_threshold = s.demotion_threshold := by
  refine ⟨?_, ?_, ?_, ?_⟩ <;> (simp only [update_difficulty]; split_ifs <;> rfl)

lemma Wf_update (s : DM) (b : Bool) (hw : Wf s) : Wf (update_difficulty s b).1 := by
  obtain ⟨h1, h2, h3, h4⟩ := hw
  obtain ⟨g1, g2, g3, g4⟩ := update_config s b
  exact ⟨g1.trans h1, g2.trans h2, g3.trans h3, g4.trans h4⟩

-- the new history is either the trimmed window or its partial reset
lemma update_hist (s : DM) (b : Bool) :
    (update_difficulty s b).1.recent_performance =
        trimWindow s.performance_window (s.recent_performance ++ [b]) ∨
    (update_difficulty s b).1.recent_performance =
        resetPerformanceTracking (trimWindow s.performance_window (s.recent_performance ++ [b])) := by
  simp only [update_difficulty]
  split_ifs <;> simp

lemma update_hist_le (s : DM) (b : Bool) (hle : s.recent_performance.length ≤ s.performance_window) :
    (update_difficulty s b).1.recent_performance.length ≤ s.performance_window := by
  have htrim : (trimWindow s.performance_window (s.recent_performance ++ [b])).length ≤ s.performance_window := by
    apply trimWindow_length_le
    simp; omega
  rcases update_hist s b with h | h <;> rw [h]
  · exact htrim
  · exact le_trans (resetPerformanceTracking_length_le _) htrim

lemma runDM_nil (s : DM) : runDM s [] = s := rfl

lemma runDM_cons (s : DM) (b : Bool) (bs : List Bool) :
    runDM s (b :: bs) = runDM (update_difficulty s b).1 bs := rfl

lemma runDM_config (s : DM) (bs : List Bool) :
    (runDM s bs).performance_window = s.performance_window ∧
    (runDM s bs).levels = s.levels := by
  induction bs generalizing s with
  | nil => exact ⟨rfl, rfl⟩
  | cons b rest ih =>
    rw [runDM_cons]
    obtain ⟨g1, g2, _, _⟩ := update_config s b
    obtain ⟨i1, i2⟩ := ih (update_difficulty s b).1
    exact ⟨i1.trans g2, i2.trans g1⟩

lemma runDM_hist_le (s : DM) (bs : List Bool) (h : s.recent_performance.length ≤ s.performance_window) :
    (runDM s bs).recent_performance.length ≤ s.performance_window := by
  induction bs generalizing s with
  | nil => exact h
  | cons b rest ih =>
    rw [runDM_cons]
    have h2 : (update_difficulty s b).1.recent_performance.length ≤
        (update_difficulty s b).1.performance_window := by
      rw [(update_config s b).2.1]
      exact update_hist_le s b h
    have h3 := ih (update_difficulty s b).1 h2
    rwa [(update_config s b).2.1] at h3

lemma runOutcomes_nil (s : DM) : runOutcomes s [] = [] := rfl

lemma runOutcomes_cons (s : DM) (b : Bool) (bs : List Bool) :
    runOutcomes s (b :: bs) =
      (update_difficulty s b).2 :: runOutcomes (update_difficulty s b).1 bs := rfl

-- a call made below the window performs no evaluation
lemma update_below_window (s : DM) (b : Bool) (hw5 : s.performance_window = 5)
    (hlt : s.recent_performance.length + 1 < 5) :
    update_difficulty s b =
      ({ s with recent_performance := s.recent_performance ++ [b] }, Outcome.noChange) := by
  have ht : trimWindow s.performance_window (s.recent_performance ++ [b]) =
      s.recent_performance ++ [b] := by
    apply trimWindow_eq_self
    simp
    omega
  have := update_of_small s b (by rw [ht]; simp; omega)
  rwa [ht] at this

-- a run that never refills the window only appends and reports no change
lemma run_below_window (s : DM) (bs : List Bool) (hw5 : s.performance_window = 5)
    (hlt : s.recent_performance.length + bs.length < 5) :
    runOutcomes s bs = List.replicate bs.length Outcome.noChange ∧
    runDM s bs = { s with recent_performance := s.recent_performance ++ bs } := by
  induction bs generalizing s with
  | nil =>
    constructor
    · rfl
    · simp [runDM_nil]
  | cons b rest ih =>
    have hstep := update_below_window s b hw5 (by simp at hlt; omega)
    have ihs := ih { s with recent_performance := s.recent_performance ++ [b] }
      (by simpa using hw5) (by simp at hlt ⊢; omega)
    constructor
    · rw [runOutcomes_cons, hstep]
      simp only [List.length_cons, List.replicate_succ]
      rw [ihs.1]
    · rw [runDM_cons, hstep]
      rw [ihs.2]
      simp

-- any reported transition happened at a refilled window and partially reset it
lemma update_transition_char (s : DM) (b : Bool)
    (hne : (update_difficulty s b).2 ≠ Outcome.noChange) :
    (trimWindow s.performance_window (s.recent_performance ++ [b])).length ≥ s.performance_window ∧
    (update_difficulty s b).1.recent_performance =
      resetPerformanceTracking (trimWindow s.performance_window (s.recent_performance ++ [b])) := by
  by_cases hge : (trimWindow s.performance_window (s.recent_performance ++ [b])).length ≥ s.performance_window
  · refine ⟨hge, ?_⟩
    simp only [update_difficulty] at hne ⊢
    split_ifs at hne ⊢ <;> simp_all
  · exfalso
    rw [update_of_small s b (by omega)] at hne
    simp at hne

-- after a transition the retained history has exactly two entries
lemma update_transition_hist_len (s : DM) (b : Bool) (hw5 : s.performance_window = 5)
    (hne : (update_difficulty s b).2 ≠ Outcome.noChange) :
    (update_difficulty s b).1.recent_performance.length = 2 := by
  obtain ⟨hge, hh⟩ := update_transition_char s b hne
  rw [hh]
  exact resetPerformanceTracking_length (by omega)

/-- C2: along every call sequence from the initial state the history window
holds at most `windowSize = 5` entries, and when an append would exceed the
bound the oldest entry is evicted first (FIFO). -/
theorem C2_window_bound_fifo :
    (∀ bs : List Bool, (runDM initDM bs).recent_performance.length ≤ 5) ∧
    (∀ (h : List Bool) (b : Bool), h.length = 5 →
      trimWindow 5 (h ++ [b]) = h.tail ++ [b]) := by
  constructor
  · intro bs
    exact runDM_hist_le initDM bs (by simp [initDM])
  · intro h b hlen
    unfold trimWindow
    rw [if_pos (by simp [hlen])]
    cases h with
    | nil => simp at hlen
    | cons x xs => simp

theorem C2_witness :
    ([true, true, true, true, true] : List Bool).length = 5 ∧
    trimWindow 5 ([true, true, true, true, true] ++ [false]) =
      ([true, true, true, true, true] : List Bool).tail ++ [false] :=
  ⟨rfl, C2_window_bound_fifo.2 _ _ rfl⟩

/-- C6: with `windowSize = 5` and an empty initial history, each of the
first four `update_difficulty` calls performs no evaluation — every reported
outcome is `noChange` and the level stays `easy` — for every combination of
correctness values. -/
theorem C6_no_eval_before_fill (bs : List Bool) (hlen : bs.length ≤ 4) :
    runOutcomes initDM bs = List.replicate bs.length Outcome.noChange ∧
    (runDM initDM bs).current_level = "easy" := by
  have h := run_below_window initDM bs rfl (by simp [initDM]; omega)
  exact ⟨h.1, by rw [h.2]; rfl⟩

theorem C6_witness :
    ([true, false, true, false] : List Bool).length ≤ 4 ∧
    runOutcomes initDM [true, false, true, false] = List.replicate 4 Outcome.noChange ∧
    (runDM initDM [true, false, true, false]).current_level = "easy" :=
  ⟨by decide, (C6_no_eval_before_fill _ (by decide)).1, (C6_no_eval_before_fill _ (by decide)).2⟩

/-- C7: `force_level` with a member of the level sequence sets the current
level to it and clears the history; with a non-member it signals the invalid
level and leaves the state completely unchanged. -/
theorem C7_force_level (s : DM) (level : String) :
    (level ∈ s.levels →
      force_level s level =
        ({ s with current_level := level, recent_performance := [] }, ForceResult.ok)) ∧
    (level ∉ s.levels → force_level s level = (s, ForceResult.invalidLevel)) := by
  constructor <;> intro h <;> unfold force_level
  · rw [if_pos h]
  · rw [if_neg h]

theorem C7_witness :
    ("hard" ∈ initDM.levels ∧
      force_level initDM "hard" =
        ({ initDM with current_level := "hard", recent_performance := [] }, ForceResult.ok)) ∧
    ("expert" ∉ initDM.levels ∧
      force_level initDM "expert" = (initDM, ForceResult.invalidLevel)) :=
  ⟨⟨by decide, (C7_force_level initDM "hard").1 (by decide)⟩,
   ⟨by decide, (C7_force_level initDM "expert").2 (by decide)⟩⟩

/-- C8: in every state, `get_current_accuracy` returns
`100 * count(true, history) / len(history)`, and `0` when the history is
empty — it uses the current history length, not the fixed window size. -/
theorem C8_accuracy (s : DM) :
    (s.recent_performance = [] → (get_current_accuracy s).1 = 0) ∧
    (s.recent_performance ≠ [] →
      (get_current_accuracy s).1 =
        100 * (s.recent_performance.count true : ℚ) / (s.recent_performance.length : ℚ)) := by
  constructor <;> intro h <;> unfold get_current_accuracy
  · rw [if_pos h]
  · rw [if_neg h]
    ring

theorem C8_witness :
    (({ initDM with recent_performance := [true, false] } : DM).recent_performance ≠ [] ∧
      (get_current_accuracy { initDM with recent_performance := [true, false] }).1 =
        100 * (({ initDM with recent_performance := [true, false] } : DM).recent_performance.count true : ℚ) /
          (({ initDM with recent_performance := [true, false] } : DM).recent_performance.length : ℚ)) ∧
    (initDM.recent_performance = [] ∧ (get_current_accuracy initDM).1 = 0) :=
  ⟨⟨by decide, (C8_accuracy _).2 (by decide)⟩, ⟨rfl, (C8_accuracy initDM).1 rfl⟩⟩

/-- C9: `reset` is idempotent — applying it twice equals applying it once —
and yields the lowest tier `easy` with an empty history. -/
theorem C9_reset_idempotent (s : DM) :
    reset (reset s) = reset s ∧
    (reset s).current_level = "easy" ∧ (reset s).recent_performance = [] :=
  ⟨rfl, rfl, rfl⟩

/-- C10: every query operation (`get_current_accuracy`,
`get_difficulty_info`, `can_promote`, `can_demote`, `get_next_level`,
`get_previous_level`) leaves the controller state — current level, history,
level list and configuration constants — unchanged. -/
theorem C10_queries_pure (s : DM) :
    (get_current_accuracy s).2 = s ∧ (get_difficulty_info s).2 = s ∧
    (can_promote s).2 = s ∧ (can_demote s).2 = s ∧
    (get_next_level s).2 = s ∧ (get_previous_level s).2 = s := by
  refine ⟨?_, rfl, rfl, rfl, ?_, ?_⟩
  · unfold get_current_accuracy
    split_ifs <;> rfl
  · unfold get_next_level
    split_ifs <;> rfl
  · unfold get_previous_level
    split_ifs <;> rfl

/-- C3: whenever a level transition occurs, the retained history equals the
last-two-entry suffix of the evaluated window, in order; at that moment the
window holds at least two entries (indeed the full five), so no entries are
ever invented. -/
theorem C3_reset_keeps_last_two (s : DM) (b : Bool) (hw : Wf s)
    (htrans : (update_difficulty s b).2 ≠ Outcome.noChange) :
    2 ≤ (trimWindow 5 (s.recent_performance ++ [b])).length ∧
    (update_difficulty s b).1.recent_performance =
      (trimWindow 5 (s.recent_performance ++ [b])).drop
        ((trimWindow 5 (s.recent_performance ++ [b])).length - 2) := by
  obtain ⟨hge, hh⟩ := update_transition_char s b htrans
  rw [hw.2.1] at hge hh
  refine ⟨by omega, ?_⟩
  rw [hh, resetPerformanceTracking_of_gt (by omega)]

theorem C3_witness :
    Wf exampleFull ∧ (update_difficulty exampleFull true).2 ≠ Outcome.noChange ∧
    2 ≤ (trimWindow 5 (exampleFull.recent_performance ++ [true])).length ∧
    (update_difficulty exampleFull true).1.recent_performance =
      (trimWindow 5 (exampleFull.recent_performance ++ [true])).drop
        ((trimWindow 5 (exampleFull.recent_performance ++ [true])).length - 2) := by
  have hw : Wf exampleFull := ⟨rfl, rfl, rfl, rfl⟩
  have ht : (update_difficulty exampleFull true).2 ≠ Outcome.noChange := by
    have hq : ((8 : ℚ)/10 ≤ 1) := by norm_num
    simp [update_difficulty, trimWindow, resetPerformanceTracking, exampleFull, initDM,
      List.indexOf, List.findIdx, List.findIdx.go, hq]
  exact ⟨hw, ht, (C3_reset_keeps_last_two exampleFull true hw ht).1, (C3_reset_keeps_last_two exampleFull true hw ht).2⟩

/-- C4: immediately after any level transition, no run of at most two
further `update_difficulty` calls can trigger another transition or change
the level: the window refills only after `windowSize - 2 = 3` new outcomes,
so at least three new recorded outcomes are required before the next
transition. -/
theorem C4_anti_oscillation (s : DM) (b : Bool) (bs : List Bool) (hw : Wf s)
    (htrans : (update_difficulty s b).2 ≠ Outcome.noChange) (hlen : bs.length ≤ 2) :
    runOutcomes (update_difficulty s b).1 bs = List.replicate bs.length Outcome.noChange ∧
    (runDM (update_difficulty s b).1 bs).current_level = (update_difficulty s b).1.current_level := by
  have hw5 : (update_difficulty s b).1.performance_window = 5 := by
    rw [(update_config s b).2.1]
    exact hw.2.1
  have hl2 := update_transition_hist_len s b hw.2.1 htrans
  have h := run_below_window (update_difficulty s b).1 bs hw5 (by rw [hl2]; omega)
  exact ⟨h.1, by rw [h.2]⟩

theorem C4_witness :
    Wf exampleFull ∧ (update_difficulty exampleFull true).2 ≠ Outcome.noChange ∧
    ([false, false] : List Bool).length ≤ 2 ∧
    runOutcomes (update_difficulty exampleFull true).1 [false, false] =
      List.replicate 2 Outcome.noChange ∧
    (runDM (update_difficulty exampleFull true).1 [false, false]).current_level =
      (update_difficulty exampleFull true).1.current_level := by
  have hw : Wf exampleFull := ⟨rfl, rfl, rfl, rfl⟩
  have ht : (update_difficulty exampleFull true).2 ≠ Outcome.noChange := by
    have hq : ((8 : ℚ)/10 ≤ 1) := by norm_num
    simp [update_difficulty, trimWindow, resetPerformanceTracking, exampleFull, initDM,
      List.indexOf, List.findIdx, List.findIdx.go, hq]
  exact ⟨hw, ht, by decide,
    (C4_anti_oscillation exampleFull true [false, false] hw ht (by decide)).1,
    (C4_anti_oscillation exampleFull true [false, false] hw ht (by decide)).2⟩

/-- C5: saturation at the boundaries — whenever the current level is the
lowest (`easy`), the next call never reports a demotion and `can_demote`
returns `false`; whenever it is the highest (`hard`), the next call never
reports a promotion and `can_promote` returns `false`.  Hence along any call
sequence a demotion never fires from `easy` nor a promotion from `hard`. -/
theorem C5_saturation (s : DM) (b : Bool) (hw : Wf s) :
    (s.current_level = "easy" →
      (update_difficulty s b).2 ≠ Outcome.demoted ∧ (can_demote s).1 = false) ∧
    (s.current_level = "hard" →
      (update_difficulty s b).2 ≠ Outcome.promoted ∧ (can_promote s).1 = false) := by
  obtain ⟨hl, hw5, hp, hd⟩ := hw
  constructor
  · intro hcl
    have hidx : s.levels.indexOf s.current_level = 0 := by rw [hl, hcl]; rfl
    constructor
    · simp only [update_difficulty]
      split_ifs with h1 h2 h3
      · simp
      · exact absurd (hidx ▸ h3.2) (lt_irrefl 0)
      · simp
      · simp
    · simp [can_demote, hidx]
  · intro hcl
    have hidx : s.levels.indexOf s.current_level = 2 := by rw [hl, hcl]; rfl
    have hlev : s.levels.length = 3 := by rw [hl]; rfl
    constructor
    · simp only [update_difficulty]
      split_ifs with h1 h2 h3
      · exact absurd h2.2 (by rw [hidx, hlev]; omega)
      · simp
      · simp
      · simp
    · simp [can_promote, hidx, hlev]

theorem C5_witness :
    Wf initDM ∧ initDM.current_level = "easy" ∧
    (update_difficulty initDM true).2 ≠ Outcome.demoted ∧ (can_demote initDM).1 = false :=
  ⟨⟨rfl, rfl, rfl, rfl⟩, rfl,
    ((C5_saturation initDM true ⟨rfl, rfl, rfl, rfl⟩).1 rfl).1,
    ((C5_saturation initDM true ⟨rfl, rfl, rfl, rfl⟩).1 rfl).2⟩

/-- C1: when the history is full after the append (five entries), a call
computes `accuracy = count(true)/5` and, checking promotion first: if
`accuracy ≥ 0.8` and the level index is not the last, it moves up one level,
performs the partial history reset and reports a promotion; otherwise if
`accuracy ≤ 0.4` and the index is not the first, it moves down one level,
resets and reports a demotion; otherwise the state evaluates to no change.
At most one transition occurs per call. -/
theorem C1_evaluation (s : DM) (b : Bool) (hw : Wf s)
    (hfull : (s.recent_performance ++ [b]).length = 5) :
    ((((s.recent_performance ++ [b]).count true : ℚ) / 5 ≥ 8/10 ∧
        s.levels.indexOf s.current_level < s.levels.length - 1 →
      update_difficulty s b =
        ({ s with
            current_level := s.levels.getD (s.levels.indexOf s.current_level + 1) s.current_level
            recent_performance := (s.recent_performance ++ [b]).drop 3 }, Outcome.promoted)) ∧
    (¬(((s.recent_performance ++ [b]).count true : ℚ) / 5 ≥ 8/10 ∧
        s.levels.indexOf s.current_level < s.levels.length - 1) →
      (((s.recent_performance ++ [b]).count true : ℚ) / 5 ≤ 4/10 ∧
        s.levels.indexOf s.current_level > 0) →
      update_difficulty s b =
        ({ s with
            current_level := s.levels.getD (s.levels.indexOf s.current_level - 1) s.current_level
            recent_performance := (s.recent_performance ++ [b]).drop 3 }, Outcome.demoted)) ∧
    (¬(((s.recent_performance ++ [b]).count true : ℚ) / 5 ≥ 8/10 ∧
        s.levels.indexOf s.current_level < s.levels.length - 1) →
      ¬((((s.recent_performance ++ [b]).count true : ℚ) / 5 ≤ 4/10 ∧
        s.levels.indexOf s.current_level > 0)) →
      update_difficulty s b =
        ({ s with recent_performance := s.recent_performance ++ [b] }, Outcome.noChange))) := by
  obtain ⟨hl, hw5, hp, hd⟩ := hw
  have ht : trimWindow s.performance_window (s.recent_performance ++ [b]) =
      s.recent_performance ++ [b] := trimWindow_eq_self (by rw [hfull, hw5])
  have hge : (trimWindow s.performance_window (s.recent_performance ++ [b])).length ≥
      s.performance_window := by rw [ht, hfull, hw5]
  have hacc : ((trimWindow s.performance_window (s.recent_performance ++ [b])).count true : ℚ) /
      ((trimWindow s.performance_window (s.recent_performance ++ [b])).length : ℚ) =
      ((s.recent_performance ++ [b]).count true : ℚ) / 5 := by
    rw [ht, hfull]
    norm_num
  have hreset : resetPerformanceTracking (trimWindow s.performance_window (s.recent_performance ++ [b])) =
      (s.recent_performance ++ [b]).drop 3 := by
    rw [ht, resetPerformanceTracking_of_gt (by rw [hfull]; omega), hfull]
  refine ⟨?_, ?_, ?_⟩
  · intro hc
    have h := update_promo s b hge ⟨by rw [hacc, hp]; exact hc.1, hc.2⟩
    rw [hreset] at h
    exact h
  · intro hnp hc
    have hnp2 : ¬(((trimWindow s.performance_window (s.recent_performance ++ [b])).count true : ℚ) /
        ((trimWindow s.performance_window (s.recent_performance ++ [b])).length : ℚ) ≥
          s.promotion_threshold ∧
        s.levels.indexOf s.current_level < s.levels.length - 1) := by
      rw [hacc, hp]
      exact hnp
    have h := update_demo s b hge hnp2 ⟨by rw [hacc, hd]; exact hc.1, hc.2⟩
    rw [hreset] at h
    exact h
  · intro hnp hnd
    have hnp2 : ¬(((trimWindow s.performance_window (s.recent_performance ++ [b])).count true : ℚ) /
        ((trimWindow s.performance_window (s.recent_performance ++ [b])).length : ℚ) ≥
          s.promotion_threshold ∧
        s.levels.indexOf s.current_level < s.levels.length - 1) := by
      rw [hacc, hp]
      exact hnp
    have hnd2 : ¬(((trimWindow s.performance_window (s.recent_performance ++ [b])).count true : ℚ) /
        ((trimWindow s.performance_window (s.recent_performance ++ [b])).length : ℚ) ≤
          s.demotion_threshold ∧
        s.levels.indexOf s.current_level > 0) := by
      rw [hacc, hd]
      exact hnd
    have h := update_nochange s b hge hnp2 hnd2
    rw [ht] at h
    exact h

theorem C1_witness :
    Wf exampleFull ∧ (exampleFull.recent_performance ++ [true]).length = 5 ∧
    (((exampleFull.recent_performance ++ [true]).count true : ℚ) / 5 ≥ 8/10 ∧
      exampleFull.levels.indexOf exampleFull.current_level < exampleFull.levels.length - 1) ∧
    update_difficulty exampleFull true =
      ({ exampleFull with
          current_level := exampleFull.levels.getD
            (exampleFull.levels.indexOf exampleFull.current_level + 1) exampleFull.current_level
          recent_performance := (exampleFull.recent_performance ++ [true]).drop 3 },
        Outcome.promoted) := by
  have hw : Wf exampleFull := ⟨rfl, rfl, rfl, rfl⟩
  have hc : (((exampleFull.recent_performance ++ [true]).count true : ℚ) / 5 ≥ 8/10 ∧
      exampleFull.levels.indexOf exampleFull.current_level < exampleFull.levels.length - 1) := by
    constructor
    · show ((([true, true, true, true, true] : List Bool).count true : ℚ) / 5 ≥ 8/10)
      norm_num
    · decide
  exact ⟨hw, rfl, hc, (C1_evaluation exampleFull true hw rfl).1 hc⟩
